import Mathlib

/-!
# imgshare-demo: the image lifecycle of `main.go`

A shallow embedding of `src/main.go` (content sniffer, slug generator, upload
handler, resolver, expiry sweep) and theorems about it.

Conventions of the embedding

* A Go `string` is a Lean `String`; Go's `len(s)` is the number of bytes of the
  UTF-8 encoding (`goLen`), `[]byte(s)` is `goBytes`.
* The two stores are external services. Their state is passed explicitly
  (`World`); what they answer to each call is given by an `Env`, so that every
  failure branch of the source can be exercised.
* A handler returns the HTTP response it wrote, the new state of the stores and
  the list of store calls it made, in order.
* The blob store always sends an answer: `client.Do` returning no response at
  all (a transport error, after which the source dereferences a nil response)
  is outside the embedding.
-/

namespace ImgShare

/-! ## Go values -/

abbrev Byte := UInt8

/-- Go `len(s)` for a string: the number of bytes. -/
def goLen (s : String) : Nat := s.utf8ByteSize

/-- Go `[]byte(s)`. -/
def goBytes (s : String) : List Byte := s.toUTF8.data.toList

/-- Go `error` values that occur in `main.go`. -/
inductive GoError where
  /-- The value of `errors.New(msg)`. -/
  | new (msg : String)
  /-- The value of `errors.New("Failed to delete image " + resp.Status)`, kept by status code. -/
  | deleteFailed (status : Nat)
  /-- An error returned by `io.ReadAll`. -/
  | read
  /-- An error returned by the pgx driver (`pgx.ErrNoRows` included). -/
  | db
  deriving DecidableEq

/-- What `io.ReadAll(file)` yields: all bytes of the reader, or an error. -/
abbrev Reader := Except GoError (List Byte)

/-! ## Content sniffer (`isValidImage`, main.go 160-197) -/

def jpegM : List Byte := [255, 216, 255]
def pngM : List Byte := [137, 80, 78, 71]
def gifM : List Byte := [71, 73, 70, 56]
def webpM : List Byte := [82, 73, 70, 70]

/-- The function `isValidImage`. The four results are `(valid, bytes, contentType, err)`;
a nil byte slice is `none`, a nil error is `none`. The slices `fileBytes[0:3]` and
`fileBytes[0:4]` are taken after the length test, so they are `take 3` and `take 4`. -/
def isValidImage (file : Reader) : Bool × Option (List Byte) × String × Option GoError :=
  match file with
  | .error err => (false, none, "", some err)
  | .ok fileBytes =>
    if fileBytes.length < 4 then
      (false, none, "", some (GoError.new "file is too short"))
    else
      let isJPEG : Bool := fileBytes.take 3 == jpegM
      let isPNG : Bool := fileBytes.take 4 == pngM
      let isGIF : Bool := fileBytes.take 4 == gifM
      let isWEBP : Bool := fileBytes.take 4 == webpM
      if isJPEG || isPNG || isGIF || isWEBP then
        if isJPEG then (true, some fileBytes, "image/jpeg", none)
        else if isPNG then (true, some fileBytes, "image/png", none)
        else if isGIF then (true, some fileBytes, "image/gif", none)
        else if isWEBP then (true, some fileBytes, "image/webp", none)
        else (false, none, "", some (GoError.new "file is not an image"))
      else
        (false, none, "", some (GoError.new "file is not an image"))

/-! ## Slug generator (`generateSlug`, main.go 148-158) -/

/-- The constant `str` of `generateSlug`. -/
def str : String := "abcdefghijklmnopqrstuvwxyz0123456789"

/-- The byte `str[k]` for an index below `len(str) = 36`. -/
def strAt (k : Fin 36) : Char := str.data.get (k.cast (by decide))

/-- The function `generateSlug`. `draw i` is the value of the `i`-th call of
`rand.Intn(len(str))`, a number below 36. -/
def generateSlug (draw : Nat → Fin 36) : String :=
  String.mk ((List.range 8).map fun i => strAt (draw i))

/-! ## The stores -/

/-- A stored object: raw bytes and the content type declared when it was put. -/
structure Blob where
  bytes : List Byte
  contentType : String
  deriving DecidableEq

/-- Modelled from the spec: the blob store (the storage service behind
`http://localhost:8000/storage/v1/object/images/`, not part of the source) is a map
from key to blob. -/
abbrev BlobStore := String → Option Blob

/-- Modelled from the spec: the table `images (slug, expires_at)`, whose schema is not
part of the source, is "one logical table of Image Records keyed by identifier, with an
expiry timestamp column": a list of rows in which no slug occurs twice. Time is
counted in seconds. -/
structure MetaStore where
  rows : List (String × Nat)
  keyed : (rows.map Prod.fst).Nodup

namespace MetaStore

/-- The expiry recorded for a slug, if the table has a row for it. -/
def lookup (db : MetaStore) (slug : String) : Option Nat :=
  (db.rows.find? fun r => r.1 == slug).map Prod.snd

/-- `SELECT slug FROM images WHERE slug = $1 AND expires_at > NOW() LIMIT 1`. -/
def selectLive (db : MetaStore) (slug : String) (now : Nat) : Option String :=
  ((db.rows.filter fun r => r.1 == slug && decide (r.2 > now)).map Prod.fst).head?

/-- `SELECT slug FROM images WHERE expires_at < NOW()`, rows in table order. -/
def selectExpired (db : MetaStore) (now : Nat) : List String :=
  (db.rows.filter fun r => decide (r.2 < now)).map Prod.fst

/-- `INSERT INTO images (slug, expires_at) VALUES (..)`: refused (`none`) when the
table already has a row for the slug. -/
def insert (db : MetaStore) (slug : String) (expiresAt : Nat) : Option MetaStore :=
  if h : slug ∈ db.rows.map Prod.fst then none
  else some
    { rows := (slug, expiresAt) :: db.rows
      keyed := by
        simp only [List.map_cons, List.nodup_cons]
        exact ⟨h, db.keyed⟩ }

/-- `DELETE FROM images WHERE slug = $1`. -/
def delete (db : MetaStore) (slug : String) : MetaStore where
  rows := db.rows.filter fun r => !(r.1 == slug)
  keyed := db.keyed.sublist ((List.filter_sublist db.rows).map Prod.fst)

end MetaStore

/-- The state of the two stores. -/
structure World where
  db : MetaStore
  blobs : BlobStore

/-- What the external services answer. A write that is answered with success takes
effect on the store, any other answer leaves the store as it was. -/
structure Env where
  /-- HTTP status the blob store answers to the `POST` of an object. -/
  putStatus : String → Nat
  /-- Whether the blob store answers the `GET` of an object with a status other than 200
  although it holds the object. -/
  getFails : String → Bool
  /-- HTTP status the blob store answers to the `DELETE` of an object. -/
  deleteStatus : String → Nat
  /-- Whether the `INSERT` of a slug fails for a reason of the database's own. -/
  insertFails : String → Bool
  /-- Whether the live-record `SELECT` for a slug fails for a reason of the database's own. -/
  liveQueryFails : String → Bool
  /-- Whether the expired-records `SELECT` fails. -/
  expiredQueryFails : Bool
  /-- Whether the `DELETE` of a row fails. -/
  dbDeleteFails : String → Bool

/-- A call to one of the stores. -/
inductive Call where
  | blobPut (key : String) (blob : Blob)
  | blobGet (key : String)
  | blobDelete (key : String)
  | dbInsert (slug : String)
  | dbSelectLive (slug : String)
  | dbSelectExpired
  | dbDelete (slug : String)
  deriving DecidableEq

/-- Whether a call goes to the blob store. -/
def Call.isBlob : Call → Bool
  | .blobPut _ _ => true
  | .blobGet _ => true
  | .blobDelete _ => true
  | _ => false

/-- `POST` of an object: the status answered and the store afterwards. -/
def blobPut (env : Env) (blobs : BlobStore) (key : String) (blob : Blob) : Nat × BlobStore :=
  if env.putStatus key = 200 then
    (200, fun k => if k = key then some blob else blobs k)
  else (env.putStatus key, blobs)

/-- `GET` of an object: `some blob` stands for the answer 200 with the blob's bytes as
body and its content type as header, `none` for any other status. -/
def blobGet (env : Env) (blobs : BlobStore) (key : String) : Option Blob :=
  if env.getFails key then none else blobs key

/-- `DELETE` of an object: the status answered and the store afterwards. -/
def blobDelete (env : Env) (blobs : BlobStore) (key : String) : Nat × BlobStore :=
  if env.deleteStatus key = 200 then
    (200, fun k => if k = key then none else blobs k)
  else (env.deleteStatus key, blobs)

/-- The `dbConn.Exec` of the `INSERT`: its error and the table afterwards. -/
def dbInsert (env : Env) (db : MetaStore) (slug : String) (expiresAt : Nat) :
    Option GoError × MetaStore :=
  if env.insertFails slug then (some GoError.db, db)
  else
    match db.insert slug expiresAt with
    | none => (some GoError.db, db)
    | some db' => (none, db')

/-- The `dbConn.Exec` of the `DELETE`: its error and the table afterwards. -/
def dbDelete (env : Env) (db : MetaStore) (slug : String) : Option GoError × MetaStore :=
  if env.dbDeleteFails slug then (some GoError.db, db) else (none, db.delete slug)

/-! ## HTTP responses -/

/-- What a handler wrote to its `http.ResponseWriter`: the status, the headers the
handler set, and the body. -/
structure Response where
  status : Nat
  contentType : Option String
  location : Option String
  body : List Byte
  deriving DecidableEq

/-- The library function `http.Error(w, msg, code)`: a plain-text response with the
given status whose body is the message and a newline. -/
def httpError (msg : String) (code : Nat) : Response :=
  { status := code, contentType := some "text/plain; charset=utf-8", location := none,
    body := goBytes (msg ++ "\n") }

/-- The library function `http.NotFound(w, r)`. -/
def httpNotFound : Response := httpError "404 page not found" 404

/-- `w.WriteHeader(code)` followed by `w.Write([]byte(msg))`, no header set. -/
def writeText (code : Nat) (msg : String) : Response :=
  { status := code, contentType := none, location := none, body := goBytes msg }

/-! ## `deleteImg` (main.go 199-213) -/

/-- The URL of an object in the blob store. -/
def objectURL (slug : String) : String :=
  "http://localhost:8000/storage/v1/object/images/" ++ slug

/-- The function `deleteImg`: its error and the blob store afterwards. -/
def deleteImg (env : Env) (blobs : BlobStore) (slug : String) : Option GoError × BlobStore :=
  let resp := blobDelete env blobs slug
  if resp.1 ≠ 200 then (some (GoError.deleteFailed resp.1), resp.2)
  else (none, resp.2)

/-! ## `uploadHandler` (main.go 75-146) -/

/-- The retention window `INTERVAL '10 days'`, in seconds. -/
def tenDays : Nat := 10 * 24 * 60 * 60

/-- An upload request, as far as `uploadHandler` looks at it. -/
inductive UploadRequest where
  /-- A request on which `r.ParseMultipartForm(10 << 20)` fails. -/
  | unparsable
  /-- A request on which `r.FormFile("image")` fails. -/
  | noImage
  /-- A request with a form file `image`. -/
  | image (file : Reader)

/-- The function `uploadHandler`. `now` is the database's `NOW()` at the insert. -/
def uploadHandler (env : Env) (draw : Nat → Fin 36) (now : Nat) (w : World)
    (r : UploadRequest) : Response × World × List Call :=
  match r with
  | .unparsable => (httpError "File too large" 400, w, [])
  | .noImage => (httpError "File not found" 400, w, [])
  | .image file =>
    match isValidImage file with
    | (_, _, _, some _) => (httpError "File not valid" 400, w, [])
    | (false, _, _, none) => (httpError "File not valid" 400, w, [])
    | (true, bfile, contentType, none) =>
      let slug := generateSlug draw
      let url := objectURL slug
      let blob : Blob := { bytes := bfile.getD [], contentType := contentType }
      let resp := blobPut env w.blobs slug blob
      if resp.1 ≠ 200 then
        (httpError "Storage upload failed" 400, { w with blobs := resp.2 }, [Call.blobPut slug blob])
      else
        let ins := dbInsert env w.db slug (now + tenDays)
        match ins.1 with
        | some _ =>
          let del := deleteImg env resp.2 slug
          (httpError "Database query failed" 500, { db := ins.2, blobs := del.2 },
            [Call.blobPut slug blob, Call.dbInsert slug, Call.blobDelete slug])
        | none =>
          ({ status := 201, contentType := none, location := some url, body := goBytes slug },
            { db := ins.2, blobs := resp.2 },
            [Call.blobPut slug blob, Call.dbInsert slug])

/-! ## `getImage` and `resolveImg` (main.go 324-379) -/

/-- The function `getImage`: `QueryRow(..).Scan(&slug)` fails when the query fails or
yields no row. -/
def getImage (env : Env) (now : Nat) (db : MetaStore) (slug : String) : Option GoError :=
  if env.liveQueryFails slug then some GoError.db
  else
    match db.selectLive slug now with
    | none => some GoError.db
    | some _ => none

/-- The function `resolveImg`, called with the URL parameter `slug`. `now` is the
database's `NOW()` at the query. -/
def resolveImg (env : Env) (now : Nat) (w : World) (slug : String) : Response × List Call :=
  if goLen slug < 8 ∨ goLen slug > 8 then
    (writeText 400 "Bad Slug", [])
  else
    match getImage env now w.db slug with
    | some _ => (writeText 400 "No such image", [Call.dbSelectLive slug])
    | none =>
      match blobGet env w.blobs slug with
      | none => (httpNotFound, [Call.dbSelectLive slug, Call.blobGet slug])
      | some blob =>
        ({ status := 200, contentType := some blob.contentType, location := none,
            body := blob.bytes },
          [Call.dbSelectLive slug, Call.blobGet slug])

/-- Whether a character is in the class `[a-zA-Z0-9]`. -/
def isRouteChar (c : Char) : Bool :=
  ('a' ≤ c && c ≤ 'z') || ('A' ≤ c && c ≤ 'Z') || ('0' ≤ c && c ≤ '9')

/-- Whether a path segment matches the route pattern `{slug:[a-zA-Z0-9]+}` of
`r.Get("/{slug:[a-zA-Z0-9]+}", resolveImg)` (main.go 65); the router matches the
expression against the whole segment. -/
def routeMatches (ident : String) : Bool :=
  !ident.data.isEmpty && ident.data.all isRouteChar

/-- The fetch path for `GET /ident`: the router calls `resolveImg` when the pattern
matches; otherwise no handler of this program runs (`none`). -/
def fetch (env : Env) (now : Nat) (w : World) (ident : String) : Option (Response × List Call) :=
  if routeMatches ident then some (resolveImg env now w ident) else none

/-! ## `cleanUp` (main.go 215-251) -/

/-- The loop `for _, slug := range slugs` of `cleanUp`: it returns the error of the first
`deleteImg` that fails; the error of the row `DELETE` is not looked at. -/
def cleanUpLoop (env : Env) : List String → World → Option GoError × World × List Call
  | [], w => (none, w, [])
  | slug :: rest, w =>
    let del := deleteImg env w.blobs slug
    match del.1 with
    | some err => (some err, { w with blobs := del.2 }, [Call.blobDelete slug])
    | none =>
      let ex := dbDelete env w.db slug
      let r := cleanUpLoop env rest { db := ex.2, blobs := del.2 }
      (r.1, r.2.1, Call.blobDelete slug :: Call.dbDelete slug :: r.2.2)

/-- The function `cleanUp`. `now` is the database's `NOW()` at the query. Scanning a
slug into a string does not fail, so the rows read are the rows selected. -/
def cleanUp (env : Env) (now : Nat) (w : World) : Option GoError × World × List Call :=
  if env.expiredQueryFails then (some GoError.db, w, [Call.dbSelectExpired])
  else
    let slugs := w.db.selectExpired now
    let r := cleanUpLoop env slugs w
    (r.1, r.2.1, Call.dbSelectExpired :: r.2.2)

/-! ## Concrete inputs -/

/-- Services that answer every call with success. -/
def calmEnv : Env :=
  { putStatus := fun _ => 200
    getFails := fun _ => false
    deleteStatus := fun _ => 200
    insertFails := fun _ => false
    liveQueryFails := fun _ => false
    expiredQueryFails := false
    dbDeleteFails := fun _ => false }

/-- Services that answer every call with success, except that the blob store answers
500 to the `DELETE` of `test0002`. -/
def oneDeleteFailsEnv : Env :=
  { calmEnv with deleteStatus := fun k => if k = "test0002" then 500 else 200 }

/-- Both stores empty. -/
def emptyWorld : World :=
  { db := ⟨[], List.nodup_nil⟩, blobs := fun _ => none }

/-- The random source that always draws 0, for which `generateSlug` is `aaaaaaaa`. -/
def zeroDraw : Nat → Fin 36 := fun _ => 0

/-- An eight-byte file that starts with the PNG signature. -/
def pngFile : List Byte := [137, 80, 78, 71, 13, 10, 26, 10]

/-- A table that still has a row for `aaaaaaaa`, expired at time 5, and no blob. -/
def staleWorld : World :=
  { db := ⟨[("aaaaaaaa", 5)], by decide⟩, blobs := fun _ => none }

/-- Three records that expired at times 1, 2 and 3 and one that expires at time 20, each
with its blob. -/
def sweepWorld : World :=
  { db := ⟨[("test0001", 1), ("test0002", 2), ("test0003", 3), ("live0001", 20)], by decide⟩
    blobs := fun k =>
      if k = "test0001" ∨ k = "test0002" ∨ k = "test0003" ∨ k = "live0001" then
        some { bytes := pngFile, contentType := "image/png" }
      else none }

/-- The alphabet of `generateSlug`: lowercase letters and digits. -/
def isSlugChar (c : Char) : Bool := str.data.contains c

/-! ## Lemmas -/

theorem utf8Len_eq_length (cs : List Char) (h : ∀ c ∈ cs, c.utf8Size = 1) :
    String.utf8Len cs = cs.length := by
  induction cs with
  | nil => rfl
  | cons c cs ih =>
    have hc : c.utf8Size = 1 := h c (List.mem_cons_self c cs)
    have ht : ∀ d ∈ cs, d.utf8Size = 1 := fun d hd => h d (List.mem_cons_of_mem c hd)
    simp [ih ht, hc]

theorem strAt_utf8Size : ∀ k : Fin 36, (strAt k).utf8Size = 1 := by decide

theorem goLen_generateSlug (draw : Nat → Fin 36) : goLen (generateSlug draw) = 8 := by
  unfold goLen generateSlug
  rw [String.utf8ByteSize_mk, utf8Len_eq_length]
  · simp
  · intro c hc
    obtain ⟨i, _, rfl⟩ := List.mem_map.mp hc
    exact strAt_utf8Size (draw i)

theorem isRouteChar_utf8Size (c : Char) (h : isRouteChar c = true) : c.utf8Size = 1 := by
  have hv : c.val ≤ 127 := by
    simp only [isRouteChar, Bool.or_eq_true, Bool.and_eq_true, decide_eq_true_eq] at h
    have hz : ('z' : Char).val ≤ 127 := by decide
    have hZ : ('Z' : Char).val ≤ 127 := by decide
    have h9 : ('9' : Char).val ≤ 127 := by decide
    rcases h with (⟨_, h⟩ | ⟨_, h⟩) | ⟨_, h⟩
    · exact Nat.le_trans h hz
    · exact Nat.le_trans h hZ
    · exact Nat.le_trans h h9
  unfold Char.utf8Size
  exact if_pos hv

theorem goLen_of_routeMatches (ident : String) (h : routeMatches ident = true) :
    goLen ident = ident.length := by
  rcases ident with ⟨cs⟩
  simp only [routeMatches, Bool.and_eq_true, List.all_eq_true] at h
  unfold goLen
  rw [String.utf8ByteSize_mk]
  exact utf8Len_eq_length cs fun c hc => isRouteChar_utf8Size c (h.2 c hc)

theorem MetaStore.lookup_eq_some_iff (db : MetaStore) (slug : String) (e : Nat) :
    db.lookup slug = some e ↔ (slug, e) ∈ db.rows := by
  rcases db with ⟨rows, keyed⟩
  simp only [MetaStore.lookup]
  induction rows with
  | nil => simp
  | cons r rows ih =>
    rcases r with ⟨k, v⟩
    simp only [List.map_cons, List.nodup_cons] at keyed
    by_cases hk : k = slug
    · subst hk
      have hnot : ∀ e, (k, e) ∉ rows := fun e he => keyed.1 (List.mem_map.mpr ⟨(k, e), he, rfl⟩)
      simp [List.find?_cons, hnot]
      exact eq_comm
    · have hne : (k == slug) = false := by simpa using hk
      have hk2 : ¬ slug = k := fun h => hk h.symm
      simp [List.find?_cons, hne, hk2]
      simpa using ih keyed.2

theorem MetaStore.lookup_eq_none_iff (db : MetaStore) (slug : String) :
    db.lookup slug = none ↔ slug ∉ db.rows.map Prod.fst := by
  simp only [MetaStore.lookup, Option.map_eq_none', List.find?_eq_none, List.mem_map, not_exists,
    not_and, beq_iff_eq, Bool.not_eq_true, beq_eq_false_iff_ne, ne_eq]

theorem MetaStore.mem_selectExpired (db : MetaStore) (now : Nat) (slug : String) :
    slug ∈ db.selectExpired now ↔ ∃ e, db.lookup slug = some e ∧ e < now := by
  simp only [MetaStore.selectExpired, List.mem_map, List.mem_filter, decide_eq_true_eq,
    MetaStore.lookup_eq_some_iff]
  constructor
  · rintro ⟨⟨k, e⟩, ⟨hm, he⟩, rfl⟩
    exact ⟨e, hm, he⟩
  · rintro ⟨e, hm, he⟩
    exact ⟨(slug, e), ⟨hm, he⟩, rfl⟩

theorem MetaStore.selectLive_eq_none (db : MetaStore) (slug : String) (now : Nat)
    (h : ∀ e, db.lookup slug = some e → e ≤ now) : db.selectLive slug now = none := by
  simp only [MetaStore.selectLive, List.head?_eq_none_iff, List.map_eq_nil_iff,
    List.filter_eq_nil_iff]
  rintro ⟨k, e⟩ hm
  simp only [Bool.and_eq_true, beq_iff_eq, decide_eq_true_eq, not_and, not_lt]
  rintro rfl
  exact h e ((db.lookup_eq_some_iff k e).mpr hm)

theorem MetaStore.lookup_delete (db : MetaStore) (k slug : String) :
    (db.delete k).lookup slug = if slug = k then none else db.lookup slug := by
  by_cases hs : slug = k
  · subst hs
    simp [MetaStore.lookup_eq_none_iff, MetaStore.delete, List.mem_filter]
  · rw [if_neg hs]
    cases hl : db.lookup slug with
    | none =>
      rw [MetaStore.lookup_eq_none_iff] at hl ⊢
      intro hm
      apply hl
      obtain ⟨r, hr, rfl⟩ := List.mem_map.mp hm
      exact List.mem_map.mpr ⟨r, (List.mem_filter.mp hr).1, rfl⟩
    | some e =>
      rw [MetaStore.lookup_eq_some_iff] at hl ⊢
      simp [MetaStore.delete, List.mem_filter, hl, hs]

theorem isValidImage_accepts (b : List Byte) (h : (isValidImage (.ok b)).1 = true) :
    isValidImage (.ok b) = (true, some b, (isValidImage (.ok b)).2.2.1, none) := by
  unfold isValidImage at h ⊢
  simp only []  at h ⊢
  split_ifs at h ⊢ <;> simp_all

theorem resolveImg_of_no_live (env : Env) (now : Nat) (w : World) (slug : String)
    (hlen : goLen slug = 8) (h : ∀ e, w.db.lookup slug = some e → e ≤ now) :
    resolveImg env now w slug = (writeText 400 "No such image", [Call.dbSelectLive slug]) := by
  have hg : getImage env now w.db slug = some GoError.db := by
    unfold getImage
    rw [MetaStore.selectLive_eq_none w.db slug now h]
    split <;> rfl
  unfold resolveImg
  rw [if_neg (by omega), hg]

theorem uploadHandler_stored (env : Env) (draw : Nat → Fin 36) (now : Nat) (w : World)
    (b : List Byte) (hvalid : (isValidImage (.ok b)).1 = true)
    (hput : env.putStatus (generateSlug draw) = 200) :
    uploadHandler env draw now w (.image (.ok b)) =
      (match (dbInsert env w.db (generateSlug draw) (now + tenDays)).1 with
      | some _ =>
        (httpError "Database query failed" 500,
          { db := (dbInsert env w.db (generateSlug draw) (now + tenDays)).2,
            blobs := (deleteImg env
              (fun k => if k = generateSlug draw then
                some ⟨b, (isValidImage (.ok b)).2.2.1⟩ else w.blobs k) (generateSlug draw)).2 },
          [Call.blobPut (generateSlug draw) ⟨b, (isValidImage (.ok b)).2.2.1⟩,
            Call.dbInsert (generateSlug draw), Call.blobDelete (generateSlug draw)])
      | none =>
        ({ status := 201, contentType := none, location := some (objectURL (generateSlug draw)),
            body := goBytes (generateSlug draw) },
          { db := (dbInsert env w.db (generateSlug draw) (now + tenDays)).2,
            blobs := fun k => if k = generateSlug draw then
                some ⟨b, (isValidImage (.ok b)).2.2.1⟩ else w.blobs k },
          [Call.blobPut (generateSlug draw) ⟨b, (isValidImage (.ok b)).2.2.1⟩,
            Call.dbInsert (generateSlug draw)])) := by
  unfold uploadHandler
  simp only []
  rw [isValidImage_accepts b hvalid]
  simp only [blobPut, hput, if_true, ne_eq, not_true_eq_false, if_false, Option.getD_some]

theorem MetaStore.insert_rows (db db' : MetaStore) (slug : String) (e : Nat)
    (h : db.insert slug e = some db') : db'.rows = (slug, e) :: db.rows := by
  unfold MetaStore.insert at h
  split_ifs at h with hm
  cases h
  rfl

theorem dbInsert_ok (env : Env) (db : MetaStore) (slug : String) (e : Nat)
    (h : (dbInsert env db slug e).1 = none) :
    (dbInsert env db slug e).2.rows = (slug, e) :: db.rows := by
  unfold dbInsert at h ⊢
  split_ifs at h ⊢ with hf
  cases hdi : db.insert slug e with
  | none => rw [hdi] at h; cases h
  | some db' => exact db.insert_rows db' slug e hdi

theorem dbInsert_failed (env : Env) (db : MetaStore) (slug : String) (e : Nat)
    (h : (dbInsert env db slug e).1 ≠ none) :
    (dbInsert env db slug e).2 = db := by
  unfold dbInsert at h ⊢
  split_ifs at h ⊢ with hf
  · rfl
  · cases hdi : db.insert slug e with
    | none => rfl
    | some db' => rw [hdi] at h; exact absurd rfl h

theorem deleteImg_blobs_other (env : Env) (blobs : BlobStore) (slug s : String) (h : s ≠ slug) :
    (deleteImg env blobs slug).2 s = blobs s := by
  unfold deleteImg blobDelete
  split_ifs <;> simp_all

theorem cleanUpLoop_calls (env : Env) (slugs : List String) :
    ∀ (w : World) (c : Call), c ∈ (cleanUpLoop env slugs w).2.2 →
      ∃ s ∈ slugs, c = Call.blobDelete s ∨ c = Call.dbDelete s := by
  induction slugs with
  | nil =>
    intro w c hc
    simp [cleanUpLoop] at hc
  | cons slug rest ih =>
    intro w c hc
    unfold cleanUpLoop at hc
    simp only [] at hc
    split at hc
    · simp only [List.mem_singleton] at hc
      exact ⟨slug, List.mem_cons_self slug rest, Or.inl hc⟩
    · simp only [List.mem_cons] at hc
      rcases hc with hc | hc | hc
      · exact ⟨slug, List.mem_cons_self slug rest, Or.inl hc⟩
      · exact ⟨slug, List.mem_cons_self slug rest, Or.inr hc⟩
      · obtain ⟨s, hs, hcs⟩ := ih _ c hc
        exact ⟨s, List.mem_cons_of_mem slug hs, hcs⟩

theorem dbDelete_lookup_other (env : Env) (db : MetaStore) (slug s : String) (h : s ≠ slug) :
    (dbDelete env db slug).2.lookup s = db.lookup s := by
  unfold dbDelete
  split_ifs
  · rfl
  · simp only [MetaStore.lookup_delete, if_neg h]

theorem cleanUpLoop_frame (env : Env) (slugs : List String) :
    ∀ (w : World) (s : String), s ∉ slugs →
      (cleanUpLoop env slugs w).2.1.db.lookup s = w.db.lookup s ∧
      (cleanUpLoop env slugs w).2.1.blobs s = w.blobs s := by
  induction slugs with
  | nil =>
    intro w s _
    exact ⟨rfl, rfl⟩
  | cons slug rest ih =>
    intro w s hs
    have hne : s ≠ slug := fun h => hs (h ▸ List.mem_cons_self slug rest)
    have hrest : s ∉ rest := fun h => hs (List.mem_cons_of_mem slug h)
    unfold cleanUpLoop
    simp only []
    split
    · exact ⟨rfl, deleteImg_blobs_other env w.blobs slug s hne⟩
    · obtain ⟨h1, h2⟩ := ih ⟨(dbDelete env w.db slug).2, (deleteImg env w.blobs slug).2⟩ s hrest
      exact ⟨h1.trans (dbDelete_lookup_other env w.db slug s hne),
        h2.trans (deleteImg_blobs_other env w.blobs slug s hne)⟩

/-! ## Publish and fetch -/

/-- C1. Publish then fetch is a round trip. For every byte buffer that `isValidImage`
accepts, if the blob store answers 200 to the put and the insert returns no error, then
`uploadHandler` answers 201 with the generated slug as body; the slug has length 8;
the store then holds the uploaded bytes under the slug with the sniffed content type;
and `resolveImg`, called with that slug at any time before the ten days are over, on
stores that answer its two reads, finds a live record (`getImage` returns no error)
and responds 200 with exactly the uploaded bytes and the sniffed content type. -/
theorem publish_then_fetch_roundtrip (env env' : Env) (draw : Nat → Fin 36) (now now' : Nat)
    (w : World) (b : List Byte)
    (hvalid : (isValidImage (.ok b)).1 = true)
    (hput : env.putStatus (generateSlug draw) = 200)
    (hins : (dbInsert env w.db (generateSlug draw) (now + tenDays)).1 = none)
    (hquery : env'.liveQueryFails (generateSlug draw) = false)
    (hget : env'.getFails (generateSlug draw) = false)
    (hnow : now' < now + tenDays) :
    (uploadHandler env draw now w (.image (.ok b))).1.status = 201 ∧
    (uploadHandler env draw now w (.image (.ok b))).1.body = goBytes (generateSlug draw) ∧
    goLen (generateSlug draw) = 8 ∧
    getImage env' now' (uploadHandler env draw now w (.image (.ok b))).2.1.db
      (generateSlug draw) = none ∧
    (uploadHandler env draw now w (.image (.ok b))).2.1.blobs (generateSlug draw) =
      some ⟨b, (isValidImage (.ok b)).2.2.1⟩ ∧
    resolveImg env' now' (uploadHandler env draw now w (.image (.ok b))).2.1 (generateSlug draw) =
      ({ status := 200, contentType := some (isValidImage (.ok b)).2.2.1, location := none,
          body := b },
        [Call.dbSelectLive (generateSlug draw), Call.blobGet (generateSlug draw)]) := by
  have hrows := dbInsert_ok env w.db (generateSlug draw) (now + tenDays) hins
  rw [uploadHandler_stored env draw now w b hvalid hput, hins]
  have hlen := goLen_generateSlug draw
  have hg : getImage env' now' (dbInsert env w.db (generateSlug draw) (now + tenDays)).2
      (generateSlug draw) = none := by
    unfold getImage MetaStore.selectLive
    rw [hquery, hrows]
    simp [hnow]
  refine ⟨rfl, rfl, hlen, hg, by simp, ?_⟩
  unfold resolveImg
  rw [if_neg (by omega)]
  simp only [hg, blobGet, hget, if_true]
  simp

/-- Witness for C1: an eight-byte PNG file published into empty stores and fetched at the
same instant. -/
theorem publish_then_fetch_roundtrip_witness :
    resolveImg calmEnv 100
        (uploadHandler calmEnv zeroDraw 100 emptyWorld (.image (.ok pngFile))).2.1
        (generateSlug zeroDraw) =
      ({ status := 200, contentType := some (isValidImage (.ok pngFile)).2.2.1, location := none,
          body := pngFile },
        [Call.dbSelectLive (generateSlug zeroDraw), Call.blobGet (generateSlug zeroDraw)]) :=
  (publish_then_fetch_roundtrip calmEnv calmEnv zeroDraw 100 100 emptyWorld pngFile
    (by decide) (by decide) (by decide) (by decide) (by decide) (by decide)).2.2.2.2.2

/-! ## Expiry at read time -/

/-- C2. Expired content is never served. For every identifier of length 8 whose record
has `expires_at` not later than the current time, and for every state of the blob store,
`resolveImg` responds with status 400 and the fixed text `No such image` (no byte of it
comes from the blob store), and none of the store calls it makes goes to the blob
store. -/
theorem expired_never_served (env : Env) (now : Nat) (db : MetaStore) (blobs : BlobStore)
    (slug : String) (e : Nat) (hlen : goLen slug = 8) (hrec : db.lookup slug = some e)
    (hexp : e ≤ now) :
    (resolveImg env now ⟨db, blobs⟩ slug).1 = writeText 400 "No such image" ∧
    (resolveImg env now ⟨db, blobs⟩ slug).1.status = 400 ∧
    ∀ c ∈ (resolveImg env now ⟨db, blobs⟩ slug).2, c.isBlob = false := by
  have h : ∀ e', (World.mk db blobs).db.lookup slug = some e' → e' ≤ now := by
    intro e' he'
    have : some e' = some e := he' ▸ hrec
    cases this
    exact hexp
  rw [resolveImg_of_no_live env now ⟨db, blobs⟩ slug hlen h]
  refine ⟨rfl, rfl, ?_⟩
  intro c hc
  simp only [List.mem_singleton] at hc
  subst hc
  rfl

/-- Witness for C2: `test0001` expired at time 1, its blob is still stored, the time is 10. -/
theorem expired_never_served_witness :
    (resolveImg calmEnv 10 ⟨sweepWorld.db, sweepWorld.blobs⟩ "test0001").1 =
        writeText 400 "No such image" ∧
    (resolveImg calmEnv 10 ⟨sweepWorld.db, sweepWorld.blobs⟩ "test0001").1.status = 400 ∧
    ∀ c ∈ (resolveImg calmEnv 10 ⟨sweepWorld.db, sweepWorld.blobs⟩ "test0001").2,
      c.isBlob = false :=
  expired_never_served calmEnv 10 sweepWorld.db sweepWorld.blobs "test0001" 1
    (by decide) (by decide) (by decide)

/-! ## The sweep -/

/-- C3, evaluated where it fails. The batch is `test0001`, `test0002`, `test0003`, all
expired, and only the blob deletion of `test0002` fails. `cleanUp` returns that error
right after the failed deletion: `test0001` is purged, `test0002` keeps its record, and
`test0003` is never attempted: no call is made for it and both its blob and its record
are still there. -/
theorem cleanUp_stops_at_failed_blob_delete :
    (cleanUp oneDeleteFailsEnv 10 sweepWorld).1 = some (GoError.deleteFailed 500) ∧
    (cleanUp oneDeleteFailsEnv 10 sweepWorld).2.2 =
      [Call.dbSelectExpired, Call.blobDelete "test0001", Call.dbDelete "test0001",
        Call.blobDelete "test0002"] ∧
    (cleanUp oneDeleteFailsEnv 10 sweepWorld).2.1.db.rows =
      [("test0002", 2), ("test0003", 3), ("live0001", 20)] ∧
    (cleanUp oneDeleteFailsEnv 10 sweepWorld).2.1.blobs "test0001" = none ∧
    (cleanUp oneDeleteFailsEnv 10 sweepWorld).2.1.blobs "test0003" =
      some { bytes := pngFile, contentType := "image/png" } := by
  decide

/-! ## Compensation -/

/-- C4, refuted as stated. The table still has a row for `aaaaaaaa`, the slug that is
generated; the file is accepted, the put is answered 200, the insert fails and the
compensating delete is answered 200; afterwards the table still has a record for
the slug. -/
theorem compensation_keeps_prior_record :
    (isValidImage (.ok pngFile)).1 = true ∧
    calmEnv.putStatus (generateSlug zeroDraw) = 200 ∧
    (dbInsert calmEnv staleWorld.db (generateSlug zeroDraw) (10 + tenDays)).1 ≠ none ∧
    calmEnv.deleteStatus (generateSlug zeroDraw) = 200 ∧
    (uploadHandler calmEnv zeroDraw 10 staleWorld (.image (.ok pngFile))).2.1.db.lookup
      (generateSlug zeroDraw) = some 5 := by
  decide

/-- C4, amended. For every upload that `isValidImage` accepts, if the put is answered
200 and the insert then fails, `uploadHandler` responds with `Database query failed`,
status 500, issues a delete of the blob under the slug it generated, and leaves the
metadata store exactly as it was; when that delete is answered 200, the blob store
has no blob under the slug and a following blob `GET` for it is not-found. -/
theorem compensating_delete_on_insert_failure (env : Env) (draw : Nat → Fin 36) (now : Nat)
    (w : World) (b : List Byte)
    (hvalid : (isValidImage (.ok b)).1 = true)
    (hput : env.putStatus (generateSlug draw) = 200)
    (hins : (dbInsert env w.db (generateSlug draw) (now + tenDays)).1 ≠ none) :
    (uploadHandler env draw now w (.image (.ok b))).1 = httpError "Database query failed" 500 ∧
    (uploadHandler env draw now w (.image (.ok b))).1.status = 500 ∧
    Call.blobDelete (generateSlug draw) ∈ (uploadHandler env draw now w (.image (.ok b))).2.2 ∧
    (uploadHandler env draw now w (.image (.ok b))).2.1.db = w.db ∧
    (env.deleteStatus (generateSlug draw) = 200 →
      (uploadHandler env draw now w (.image (.ok b))).2.1.blobs (generateSlug draw) = none ∧
      ∀ env' : Env,
        blobGet env' (uploadHandler env draw now w (.image (.ok b))).2.1.blobs
          (generateSlug draw) = none) := by
  have hdb := dbInsert_failed env w.db (generateSlug draw) (now + tenDays) hins
  rw [uploadHandler_stored env draw now w b hvalid hput]
  cases hi : (dbInsert env w.db (generateSlug draw) (now + tenDays)).1 with
  | none => exact absurd hi hins
  | some err =>
    refine ⟨rfl, rfl, by simp, hdb, ?_⟩
    intro hdel
    have hnone : (deleteImg env
        (fun k => if k = generateSlug draw then
          some ⟨b, (isValidImage (.ok b)).2.2.1⟩ else w.blobs k) (generateSlug draw)).2
        (generateSlug draw) = none := by
      simp [deleteImg, blobDelete, hdel]
    refine ⟨hnone, ?_⟩
    intro env'
    unfold blobGet
    split
    · rfl
    · exact hnone

/-- Witness for C4: the insert of `aaaaaaaa` fails on the table that already has it. -/
theorem compensating_delete_on_insert_failure_witness :
    (uploadHandler calmEnv zeroDraw 10 staleWorld (.image (.ok pngFile))).1.status = 500 ∧
    (uploadHandler calmEnv zeroDraw 10 staleWorld (.image (.ok pngFile))).2.1.db =
      staleWorld.db ∧
    (uploadHandler calmEnv zeroDraw 10 staleWorld (.image (.ok pngFile))).2.1.blobs
      (generateSlug zeroDraw) = none :=
  have h := compensating_delete_on_insert_failure calmEnv zeroDraw 10 staleWorld pngFile
    (by decide) (by decide) (by decide)
  ⟨h.2.1, h.2.2.2.1, (h.2.2.2.2 (by decide)).1⟩

/-! ## The sweep touches expired records only -/

/-- C5. The sweeper only touches expired records. For every state of the two stores and
every current time `now`, every call `cleanUp` makes is the select of the batch or the
deletion of a blob or of a record whose identifier has a record with `expires_at < now`;
and every record with `expires_at >= now`, and the blob stored under its identifier, is
the same after `cleanUp` as before it. -/
theorem cleanUp_touches_only_expired (env : Env) (now : Nat) (w : World) :
    (∀ c ∈ (cleanUp env now w).2.2,
      c = Call.dbSelectExpired ∨
      ∃ s e, (c = Call.blobDelete s ∨ c = Call.dbDelete s) ∧
        w.db.lookup s = some e ∧ e < now) ∧
    (∀ s e, w.db.lookup s = some e → now ≤ e →
      (cleanUp env now w).2.1.db.lookup s = some e ∧
      (cleanUp env now w).2.1.blobs s = w.blobs s) := by
  unfold cleanUp
  split_ifs with hq
  · refine ⟨?_, ?_⟩
    · intro c hc
      simp only [List.mem_singleton] at hc
      exact Or.inl hc
    · intro s e hs _
      exact ⟨hs, rfl⟩
  · refine ⟨?_, ?_⟩
    · intro c hc
      simp only [List.mem_cons] at hc
      rcases hc with hc | hc
      · exact Or.inl hc
      · obtain ⟨s, hs, hcs⟩ := cleanUpLoop_calls env _ w c hc
        obtain ⟨e, he, hlt⟩ := (w.db.mem_selectExpired now s).mp hs
        exact Or.inr ⟨s, e, hcs, he, hlt⟩
    · intro s e hs hle
      have hnot : s ∉ w.db.selectExpired now := by
        intro hm
        obtain ⟨e', he', hlt⟩ := (w.db.mem_selectExpired now s).mp hm
        have : some e' = some e := he' ▸ hs
        cases this
        omega
      obtain ⟨h1, h2⟩ := cleanUpLoop_frame env _ w s hnot
      exact ⟨h1.trans hs, h2⟩

/-- Witness for C5: `live0001` expires at time 20 and the sweep runs at time 10. -/
theorem cleanUp_touches_only_expired_witness :
    (cleanUp calmEnv 10 sweepWorld).2.1.db.lookup "live0001" = some 20 ∧
    (cleanUp calmEnv 10 sweepWorld).2.1.blobs "live0001" = sweepWorld.blobs "live0001" :=
  (cleanUp_touches_only_expired calmEnv 10 sweepWorld).2 "live0001" 20 (by decide) (by decide)

/-! ## Status of the not-found outcome -/

/-- C6, evaluated where it fails. For `abcd1234`, never published, and for `test0001`,
whose record expired at time 1, `resolveImg` at time 10 writes status 400 with the text
`No such image`, not 404. -/
theorem absent_or_expired_answered_400 :
    resolveImg calmEnv 10 emptyWorld "abcd1234" =
      (writeText 400 "No such image", [Call.dbSelectLive "abcd1234"]) ∧
    (resolveImg calmEnv 10 emptyWorld "abcd1234").1.status = 400 ∧
    (resolveImg calmEnv 10 sweepWorld "test0001").1.status = 400 ∧
    (resolveImg calmEnv 10 sweepWorld "test0001").1.status ≠ 404 := by
  decide

/-! ## Shape of identifiers -/

/-- C7. Wrong-length identifiers are rejected before any store is touched. For every
identifier whose length is not 8, `resolveImg` responds with status 400 and makes no
store call at all. The length is Go's `len`, the number of bytes; for an identifier that
the route lets through it is also the number of characters. -/
theorem wrong_length_rejected_without_store_call (env : Env) (now : Nat) (w : World)
    (slug : String)
    (h : goLen slug ≠ 8 ∨ (routeMatches slug = true ∧ slug.length ≠ 8)) :
    (resolveImg env now w slug).1.status = 400 ∧ (resolveImg env now w slug).2 = [] := by
  have hlen : goLen slug ≠ 8 := by
    rcases h with h | ⟨hr, h⟩
    · exact h
    · rw [goLen_of_routeMatches slug hr]
      exact h
  unfold resolveImg
  rw [if_pos (by omega)]
  exact ⟨rfl, rfl⟩

/-- Witness for C7: an identifier of 7 characters and one of 9. -/
theorem wrong_length_rejected_without_store_call_witness :
    ((resolveImg calmEnv 10 sweepWorld "test000").1.status = 400 ∧
      (resolveImg calmEnv 10 sweepWorld "test000").2 = []) ∧
    ((resolveImg calmEnv 10 sweepWorld "test00011").1.status = 400 ∧
      (resolveImg calmEnv 10 sweepWorld "test00011").2 = []) :=
  ⟨wrong_length_rejected_without_store_call calmEnv 10 sweepWorld "test000"
      (Or.inl (by decide)),
    wrong_length_rejected_without_store_call calmEnv 10 sweepWorld "test00011"
      (Or.inr (by decide))⟩

/-- C8, refuted as stated. `ABCDEFGH` is not made of lowercase letters and digits, yet it
matches the route pattern and has length 8, so `resolveImg` queries the metadata
store for it. -/
theorem uppercase_identifier_reaches_store :
    ¬ ("ABCDEFGH".length = 8 ∧ ∀ c ∈ "ABCDEFGH".data, isSlugChar c = true) ∧
    fetch calmEnv 0 emptyWorld "ABCDEFGH" =
      some (writeText 400 "No such image", [Call.dbSelectLive "ABCDEFGH"]) := by
  decide

/-- C8, amended. For every identifier that is not a string of exactly 8 characters drawn
from `a-z`, `A-Z` and `0-9`, the fetch path rejects it without any store call: either the
route pattern does not match and `resolveImg` is not run, or `resolveImg` answers 400
`Bad Slug` having made no call. -/
theorem malformed_rejected_without_store_call (env : Env) (now : Nat) (w : World)
    (ident : String)
    (h : ¬ (ident.length = 8 ∧ ∀ c ∈ ident.data, isRouteChar c = true)) :
    fetch env now w ident = none ∨
    fetch env now w ident = some (writeText 400 "Bad Slug", []) := by
  unfold fetch
  by_cases hr : routeMatches ident = true
  · right
    rw [if_pos hr]
    have hall : ∀ c ∈ ident.data, isRouteChar c = true := by
      simp only [routeMatches, Bool.and_eq_true, List.all_eq_true] at hr
      exact hr.2
    have hlen : goLen ident ≠ 8 := by
      rw [goLen_of_routeMatches ident hr]
      exact fun h8 => h ⟨h8, hall⟩
    unfold resolveImg
    rw [if_pos (by omega)]
  · left
    rw [if_neg hr]

/-- Witness for C8: an identifier with a character outside the pattern, and one of nine
characters. -/
theorem malformed_rejected_without_store_call_witness :
    (fetch calmEnv 0 emptyWorld "abcd-123" = none ∨
      fetch calmEnv 0 emptyWorld "abcd-123" = some (writeText 400 "Bad Slug", [])) ∧
    (fetch calmEnv 0 emptyWorld "abcd12345" = none ∨
      fetch calmEnv 0 emptyWorld "abcd12345" = some (writeText 400 "Bad Slug", [])) :=
  ⟨malformed_rejected_without_store_call calmEnv 0 emptyWorld "abcd-123" (by decide),
    malformed_rejected_without_store_call calmEnv 0 emptyWorld "abcd12345" (by decide)⟩

/-! ## Content sniffer -/

/-- C9. The content sniffer is a closed allow-list. Every byte buffer, the empty one
included, that is shorter than 4 bytes, or that starts with none of the four signatures,
is rejected: `valid` is false, there are no bytes, the content type is empty and there
is an error. -/
theorem sniffer_rejects_short_or_unmatched (b : List Byte)
    (h : b.length < 4 ∨ (¬ jpegM <+: b ∧ ¬ pngM <+: b ∧ ¬ gifM <+: b ∧ ¬ webpM <+: b)) :
    ∃ e, isValidImage (.ok b) = (false, none, "", some e) := by
  unfold isValidImage
  by_cases hlen : b.length < 4
  · exact ⟨GoError.new "file is too short", by simp [hlen]⟩
  · rcases h with h | ⟨hj, hp, hg, hw⟩
    · exact absurd h hlen
    · have ej : (b.take 3 == jpegM) = false := by
        rw [beq_eq_false_iff_ne]
        intro e
        exact hj (e ▸ List.take_prefix 3 b)
      have ep : (b.take 4 == pngM) = false := by
        rw [beq_eq_false_iff_ne]
        intro e
        exact hp (e ▸ List.take_prefix 4 b)
      have eg : (b.take 4 == gifM) = false := by
        rw [beq_eq_false_iff_ne]
        intro e
        exact hg (e ▸ List.take_prefix 4 b)
      have ew : (b.take 4 == webpM) = false := by
        rw [beq_eq_false_iff_ne]
        intro e
        exact hw (e ▸ List.take_prefix 4 b)
      exact ⟨GoError.new "file is not an image", by simp [hlen, ej, ep, eg, ew]⟩

/-- Witness for C9: the empty buffer, and a buffer of five bytes without a signature. -/
theorem sniffer_rejects_short_or_unmatched_witness :
    (∃ e, isValidImage (.ok []) = (false, none, "", some e)) ∧
    (∃ e, isValidImage (.ok [66, 77, 0, 0, 0]) = (false, none, "", some e)) :=
  ⟨sniffer_rejects_short_or_unmatched [] (Or.inl (by decide)),
    sniffer_rejects_short_or_unmatched [66, 77, 0, 0, 0] (Or.inr (by decide))⟩

/-- C10, refuted as stated. The buffer that is exactly the JPEG signature `FF D8 FF`
starts with that signature and is rejected, for being shorter than 4 bytes. -/
theorem bare_jpeg_signature_rejected :
    jpegM <+: [255, 216, 255] ∧
    isValidImage (.ok [255, 216, 255]) = (false, none, "", some (GoError.new "file is too short")) := by
  decide

/-- C10, amended. Every byte buffer of at least 4 bytes that starts with one of the four
signatures is accepted, whatever bytes follow, with the content type of that signature
and the buffer's bytes unmodified. -/
theorem sniffer_accepts_on_signature (b : List Byte) (h4 : 4 ≤ b.length) :
    (jpegM <+: b → isValidImage (.ok b) = (true, some b, "image/jpeg", none)) ∧
    (pngM <+: b → isValidImage (.ok b) = (true, some b, "image/png", none)) ∧
    (gifM <+: b → isValidImage (.ok b) = (true, some b, "image/gif", none)) ∧
    (webpM <+: b → isValidImage (.ok b) = (true, some b, "image/webp", none)) := by
  have hlen : ¬ b.length < 4 := by omega
  refine ⟨?_, ?_, ?_, ?_⟩
  · rintro ⟨t, rfl⟩
    simp only [isValidImage, if_neg hlen]
    simp [jpegM]
  · rintro ⟨t, rfl⟩
    simp only [isValidImage, if_neg hlen]
    simp [jpegM, pngM]
  · rintro ⟨t, rfl⟩
    simp only [isValidImage, if_neg hlen]
    simp [jpegM, pngM, gifM]
  · rintro ⟨t, rfl⟩
    simp only [isValidImage, if_neg hlen]
    simp [jpegM, pngM, gifM, webpM]

/-- Witness for C10: the JPEG signature followed by one byte. -/
theorem sniffer_accepts_on_signature_witness :
    isValidImage (.ok [255, 216, 255, 0]) = (true, some [255, 216, 255, 0], "image/jpeg", none) :=
  (sniffer_accepts_on_signature [255, 216, 255, 0] (by decide)).1 (by decide)

end ImgShare
